import Mathlib

/-!
Verification development for the openai-code-interpreter repository
(Secure Data Analysis System): a shallow embedding of the capability-scoped
tool-dispatch pattern (agents, tool registry, conversation state, file-access
and code-execution tools, orchestrator loop) together with theorems settling
the specification claims. Components whose Python implementation is not part
of the repository snapshot (only quoted excerpts, class-diagram declarations
or callers are) are modelled from the specification and marked as such in
their doc comments.
-/

/-- Role tag of a conversation message (spec section 3: developer, user,
assistant, tool-result). -/
inductive Role where
  | developer
  | user
  | assistant
  | tool_result
deriving DecidableEq, Repr

/-- ToolResult (spec section 3): output payload plus a success flag, produced
by a Tool run. -/
structure ToolResult where
  output : String
  success : Bool
deriving DecidableEq, Repr

/-- ToolCallRequest (spec section 3): produced by the Model Client, consumed
by the Agent to dispatch to a Tool. -/
structure ToolCallRequest where
  tool_call_id : String
  tool_name : String
  arguments : String
deriving DecidableEq, Repr

/-- Content of a conversation message: plain text, an assistant tool-call
request list, or a tool result. -/
inductive MessageContent where
  | text (s : String)
  | toolCallList (calls : List ToolCallRequest)
  | result (r : ToolResult)
deriving DecidableEq, Repr

/-- Message (spec section 3): role, content, optional tool_call_id linking a
tool result to the assistant tool call that caused it. -/
structure Message where
  role : Role
  content : MessageContent
  tool_call_id : Option String
deriving DecidableEq, Repr

/-- Makes the user message appended when a task starts (spec section 4.3
step 1). -/
def mkUserMessage (s : String) : Message :=
  Message.mk Role.user (MessageContent.text s) none

/-- Makes a final assistant text message (spec section 4.3 step 4). -/
def mkAssistantText (s : String) : Message :=
  Message.mk Role.assistant (MessageContent.text s) none

/-- Makes the assistant message recording a round of tool-call requests. -/
def mkAssistantToolCalls (calls : List ToolCallRequest) : Message :=
  Message.mk Role.assistant (MessageContent.toolCallList calls) none

/-- Makes the tool_result message carrying a ToolResult, tagged with the
originating tool_call_id (spec section 4.3 step 3). -/
def mkToolResultMessage (id : String) (r : ToolResult) : Message :=
  Message.mk Role.tool_result (MessageContent.result r) (some id)

/-- Modelled from the spec: the ChatMessages / Conversation State class
(resources/object_oriented_agents/core_classes) is not under src/; spec
section 4.4 gives its contract: an ordered sequence of messages with append
as the only mutator. -/
structure ChatMessages where
  messages : List Message
deriving DecidableEq, Repr

/-- Modelled from the spec: append adds one message at the end of the ordered
sequence (spec section 4.2). -/
def ChatMessages.append (s : ChatMessages) (m : Message) : ChatMessages :=
  ChatMessages.mk (s.messages ++ [m])

/-- Modelled from the spec: snapshot returns the ordered message sequence,
read-only (spec section 4.2). -/
def ChatMessages.snapshot (s : ChatMessages) : List Message :=
  s.messages

/-- Appends a whole list of messages one call at a time. -/
def ChatMessages.appendAll (s : ChatMessages) (ms : List Message) : ChatMessages :=
  ms.foldl ChatMessages.append s

/-- Client program that takes a snapshot, applies an arbitrary mutation f to
its own copy, then appends to the state: used to express that mutating the
snapshot cannot affect the state seen by append. -/
def ChatMessages.mutateSnapshotThenAppend (s : ChatMessages)
    (f : List Message → List Message) (m : Message) : ChatMessages × List Message :=
  (s.append m, f s.snapshot)

/-- ToolInterface as declared in the README class diagram: a named tool with
a schema description exposed to the model. -/
structure ToolInterface where
  name : String
  description : String
deriving DecidableEq, Repr

/-- ToolManager as declared in the README class diagram; its implementation
is not under src/. Modelled from the spec (section 4.1). -/
structure ToolManager where
  tools : List ToolInterface
deriving DecidableEq, Repr

/-- Tests whether a tool with the given name is already registered. -/
def ToolManager.hasTool (r : ToolManager) (n : String) : Bool :=
  r.tools.any (fun t => t.name == n)

/-- Modelled from the spec: register_tool fails if a tool with the same name
is already registered, with no silent overwrite (spec section 4.1). -/
def ToolManager.register_tool (r : ToolManager) (t : ToolInterface) :
    Except String ToolManager :=
  if r.hasTool t.name then
    Except.error ("Tool already registered: " ++ t.name)
  else
    Except.ok (ToolManager.mk (r.tools ++ [t]))

/-- The schema list enumerated for LLM exposure, in registration order (spec
section 4.1, get_tool_definitions in the README class diagram). -/
def ToolManager.get_tool_definitions (r : ToolManager) : List ToolInterface :=
  r.tools

/-- State retained by a caller of register_tool: the new manager on success,
the old manager on failure (a failed registration mutates nothing). -/
def ToolManager.registerOrKeep (r : ToolManager) (t : ToolInterface) : ToolManager :=
  match r.register_tool t with
  | Except.ok r2 => r2
  | Except.error _ => r

/-- Tests whether a character list contains two consecutive dots. -/
def hasDotDot : List Char → Bool
  | [] => false
  | [_] => false
  | c1 :: c2 :: rest => (c1 == '.' && c2 == '.') || hasDotDot (c2 :: rest)

/-- Tests whether a filename contains the traversal sequence made of two
consecutive dots. -/
def containsTraversal (filename : String) : Bool :=
  hasDotDot filename.data

/-- Modelled from the spec: the FileAccessTool helper named with a leading
underscore that validates paths is not under src/ (only its caller
safe_file_access is quoted in README.md); spec section 4.5 says the policy
rejects traversal sequences and absolute paths outside a designated root. -/
def is_safe_path (root : String) (filename : String) : Bool :=
  !(containsTraversal filename) &&
    (!(filename.startsWith "/") || filename.startsWith root)

/-- Embeds safe_file_access (src/README.md lines 110-113 and
src/unnamed/part_000 lines 105-108): validates the path before reading. The
host filesystem is abstracted as fs; the second component of the result
records which filenames were actually read, so that reading can be observed.
The read helper is not under src/ and is modelled as a lookup in fs. -/
def safe_file_access (root : String) (fs : String → Option String)
    (filename : String) : ToolResult × List String :=
  if !(is_safe_path root filename) then
    (ToolResult.mk "Error: Invalid file path" false, [])
  else
    match fs filename with
    | some content => (ToolResult.mk content true, [filename])
    | none => (ToolResult.mk "Error: Could not read file" false, [filename])

/-- Behaviour of one sandboxed execution: the step count at which the code
finishes (none for code that never finishes, such as an infinite loop), its
output and exit code. Wall-clock time is abstracted as steps. -/
structure SandboxProcess where
  finishTime : Option Nat
  output : String
  exitCode : Nat
deriving DecidableEq, Repr

/-- Outcome of CodeExecTool.run: the ToolResult, the steps elapsed before
returning, and whether the sandbox process is left running afterwards. -/
structure ExecOutcome where
  result : ToolResult
  elapsed : Nat
  processRunning : Bool
deriving DecidableEq, Repr

namespace CodeExecTool

/-- Modelled from the spec: the PythonExecTool implementation (docker exec
with a timeout) is not under src/; spec section 4.4 gives its contract: the
code runs under a bounded wall-clock timeout, on timeout the execution is
forcibly terminated and a failed ToolResult with a timeout indicator is
returned, never left running. -/
def run (timeout : Nat) (p : SandboxProcess) : ExecOutcome :=
  match p.finishTime with
  | some t =>
    if t ≤ timeout then
      ExecOutcome.mk (ToolResult.mk p.output (p.exitCode == 0)) t false
    else
      ExecOutcome.mk (ToolResult.mk "Error: execution timed out" false) timeout false
  | none =>
    ExecOutcome.mk (ToolResult.mk "Error: execution timed out" false) timeout false

end CodeExecTool

/-- Response of the Model Client for one round (spec section 6): finalized
text, one or more tool-call requests, or a transport failure. -/
inductive ModelResponse where
  | text (content : String)
  | toolCalls (calls : List ToolCallRequest)
  | transportError (err : String)
deriving DecidableEq, Repr

/-- Outcome of Agent.perform: the conversation reached and the number of
completed tool-call rounds are carried for diagnostics (spec section 7). -/
inductive PerformResult where
  | done (answer : String) (conv : List Message) (roundsUsed : Nat)
  | fatalTransport (err : String) (conv : List Message) (roundsUsed : Nat)
  | fatalToolNotFound (toolName : String) (conv : List Message) (roundsUsed : Nat)
  | loopBudgetExceeded (conv : List Message) (roundsUsed : Nat)
deriving DecidableEq, Repr

/-- Number of completed tool-call rounds recorded in a PerformResult. -/
def PerformResult.rounds : PerformResult → Nat
  | PerformResult.done _ _ k => k
  | PerformResult.fatalTransport _ _ k => k
  | PerformResult.fatalToolNotFound _ _ k => k
  | PerformResult.loopBudgetExceeded _ k => k

/-- Tests whether a PerformResult is fatal to the caller of perform. -/
def PerformResult.isFatal : PerformResult → Bool
  | PerformResult.done _ _ _ => false
  | _ => true

/-- Tests whether a fatal PerformResult is a Model Client transport failure
or a loop-budget exhaustion. -/
def PerformResult.isTransportOrBudget : PerformResult → Bool
  | PerformResult.fatalTransport _ _ _ => true
  | PerformResult.loopBudgetExceeded _ _ => true
  | _ => false

/-- Modelled from the spec: dispatch of one round of tool calls (spec
section 4.3 step 3 and section 3): the calls are executed in the order
received and the resulting tool_result messages are produced in that same
order; an unregistered tool name is a dispatch error carrying that name,
never silently ignored. Each run result, success or failure, becomes a
tool_result message tagged with the originating tool_call_id. -/
def runCalls (tools : String → Option (String → ToolResult)) :
    List ToolCallRequest → Except String (List Message)
  | [] => Except.ok []
  | c :: cs =>
    match tools c.tool_name with
    | none => Except.error c.tool_name
    | some f =>
      match runCalls tools cs with
      | Except.error n => Except.error n
      | Except.ok ms =>
        Except.ok (mkToolResultMessage c.tool_call_id (f c.arguments) :: ms)

/-- Modelled from the spec: the Agent dispatch loop (spec section 4.3, the
BaseAgent task loop is not under src/). The client is the mock-able Model
Client, indexed by the number of completed tool-call rounds; remaining is the
tool-call round budget still available; conv is the Conversation State. A
text response terminates in done; a transport error is fatal; a tool-call
response with no remaining budget fails with loopBudgetExceeded; otherwise
the round is dispatched, its results appended, and the loop continues. -/
def dispatchLoop (client : Nat → ModelResponse)
    (tools : String → Option (String → ToolResult)) :
    Nat → Nat → List Message → PerformResult
  | 0, callIdx, conv =>
    match client callIdx with
    | ModelResponse.transportError e => PerformResult.fatalTransport e conv callIdx
    | ModelResponse.text s => PerformResult.done s (conv ++ [mkAssistantText s]) callIdx
    | ModelResponse.toolCalls _ => PerformResult.loopBudgetExceeded conv callIdx
  | Nat.succ r, callIdx, conv =>
    match client callIdx with
    | ModelResponse.transportError e => PerformResult.fatalTransport e conv callIdx
    | ModelResponse.text s => PerformResult.done s (conv ++ [mkAssistantText s]) callIdx
    | ModelResponse.toolCalls calls =>
      match runCalls tools calls with
      | Except.error n => PerformResult.fatalToolNotFound n conv callIdx
      | Except.ok ms =>
        dispatchLoop client tools r (callIdx + 1)
          (conv ++ mkAssistantToolCalls calls :: ms)

/-- Modelled from the spec: Agent.perform appends the task as a user message
and runs the dispatch loop with the configured maximum number of tool-call
rounds (spec section 4.3 steps 1 and 5). -/
def perform (client : Nat → ModelResponse)
    (tools : String → Option (String → ToolResult))
    (maxRounds : Nat) (task : String) : PerformResult :=
  dispatchLoop client tools maxRounds 0 [mkUserMessage task]

/-- Events of the notebook orchestrator, in program order. -/
inductive OrchEvent where
  | fileAgentTaskStart (prompt : String)
  | fileAgentTaskEnd (output : String)
  | addContext (s : String)
  | dataAgentTaskStart (question : String)
  | dataAgentTaskEnd (output : String)
  | exitApp
deriving DecidableEq, Repr

/-- Embeds the while-loop of orchestration cell 866b7eb2 of the notebook:
each user input is compared with the string exit; on an exact match the loop
breaks before any agent call, otherwise data_analysis_agent.task runs on the
input and the loop repeats. The list models the successive input() values. -/
def interactionTrace (dataOut : String → String) : List String → List OrchEvent
  | [] => []
  | i :: rest =>
    if i = "exit" then [OrchEvent.exitApp]
    else OrchEvent.dataAgentTaskStart i :: OrchEvent.dataAgentTaskEnd (dataOut i) ::
      interactionTrace dataOut rest

/-- Embeds orchestration cell 866b7eb2 of the notebook as an event trace:
file_ingestion_agent.task(prompt) runs to completion, then
data_analysis_agent.add_context(prompt) and add_context(file output), then
the interactive while-loop. fileOut and dataOut abstract the agents'
task outputs. -/
def orchestratorTrace (prompt fileOut : String) (dataOut : String → String)
    (inputs : List String) : List OrchEvent :=
  OrchEvent.fileAgentTaskStart prompt :: OrchEvent.fileAgentTaskEnd fileOut ::
  OrchEvent.addContext prompt :: OrchEvent.addContext fileOut ::
  interactionTrace dataOut inputs

/-- Conversation context owned by one agent (BaseAgent owns one ChatMessages
instance per the README class diagram). -/
structure AgentCtx where
  messages : List Message
deriving DecidableEq, Repr

/-- Modelled from the spec: BaseAgent.add_context (called in orchestration
cell 866b7eb2; the BaseAgent implementation is not under src/) appends the
given context to the agent's owned conversation. -/
def AgentCtx.add_context (a : AgentCtx) (s : String) : AgentCtx :=
  AgentCtx.mk (a.messages ++ [mkUserMessage s])

/-- Modelled from the spec: BaseAgent.task (not under src/) appends the user
task and the final assistant answer to the agent's owned Conversation State
(spec section 4.3 steps 1 and 4); respond abstracts the model interaction,
computing the answer from the conversation seen by the model. -/
def AgentCtx.task (respond : List Message → String) (a : AgentCtx)
    (q : String) : AgentCtx × String :=
  let withUser := a.messages ++ [mkUserMessage q]
  let out := respond withUser
  (AgentCtx.mk (withUser ++ [mkAssistantText out]), out)

/-- Embeds the while-loop of orchestration cell 866b7eb2 at the level of the
data-analysis agent's state: returns the agent's conversation context at the
start of each dispatched task, in order. The same agent object is threaded
through the iterations exactly as in the cell, which never re-creates or
resets data_analysis_agent. -/
def orchLoopStates (respond : List Message → String) :
    AgentCtx → List String → List AgentCtx
  | _, [] => []
  | a, i :: rest =>
    if i = "exit" then []
    else a :: orchLoopStates respond (AgentCtx.task respond a i).1 rest

/-- Observable events of the interactive driver loop. -/
inductive LoopEvent where
  | dispatched (q : String)
  | exited
deriving DecidableEq, Repr

/-- Embeds the control flow of the while-loop of orchestration cell
866b7eb2: while True, read an input; if it equals exit, break; otherwise
dispatch it to data_analysis_agent.task. The input list models the
successive input() values; the result is the ordered event list. -/
def interactiveLoop : List String → List LoopEvent
  | [] => []
  | i :: rest =>
    if i = "exit" then [LoopEvent.exited]
    else LoopEvent.dispatched i :: interactiveLoop rest

/-- Request payload sent to the chat completions endpoint. -/
structure ChatCompletionRequest where
  model : String
  messages : List Message
  tools : Option (List ToolInterface)
  reasoning_effort : Option String
deriving DecidableEq, Repr

/-- Embeds generate_completion from src/README.md lines 120-136 (also
src/unnamed/part_000 lines 115-131): the request it passes to
openai_client.chat.completions.create names model, messages and tools only,
so the payload carries no reasoning-effort field even when the
reasoning_effort parameter is supplied. -/
def generate_completion_request (model : String) (messages : List Message)
    (tools : Option (List ToolInterface)) (reasoning_effort : Option String) :
    ChatCompletionRequest :=
  ChatCompletionRequest.mk model messages tools none

theorem chatMessages_appendAll_messages (s : ChatMessages) (ms : List Message) :
    (ChatMessages.appendAll s ms).messages = s.messages ++ ms := by
  induction ms generalizing s with
  | nil => simp [ChatMessages.appendAll]
  | cons m rest ih =>
    show (ChatMessages.appendAll (s.append m) rest).messages = _
    rw [ih]
    simp [ChatMessages.append]

/-- C6: appending N tool-result messages to a Conversation State and then
calling snapshot yields exactly the original messages followed by the N
appended ones in insertion order; and a client that mutates its snapshot copy
before appending obtains exactly the same state as one that appends directly,
so mutating the snapshot does not affect subsequent append calls. -/
theorem c6_conversation_snapshot_roundtrip (s : ChatMessages) (ms : List Message)
    (f : List Message → List Message) (m : Message) :
    (ChatMessages.appendAll s ms).snapshot = s.snapshot ++ ms ∧
    (ChatMessages.mutateSnapshotThenAppend s f m).1 = s.append m := by
  refine ⟨?_, rfl⟩
  simpa [ChatMessages.snapshot] using chatMessages_appendAll_messages s ms

/-- C5: register_tool on a name that is already registered fails with an
error and the registry retained by the caller has an unchanged schema list:
the failed registration is rejected without overwriting anything. -/
theorem c5_register_duplicate_rejected (r : ToolManager) (t : ToolInterface)
    (h : r.hasTool t.name = true) :
    r.register_tool t = Except.error ("Tool already registered: " ++ t.name) ∧
    (r.registerOrKeep t).get_tool_definitions = r.get_tool_definitions := by
  constructor
  · simp [ToolManager.register_tool, h]
  · simp [ToolManager.registerOrKeep, ToolManager.register_tool, h]

/-- Schema of the host file-access tool, as exposed to the model. -/
def fileToolSchema : ToolInterface :=
  ToolInterface.mk "safe_file_access" "Read a file from the host"

/-- Second tool carrying the same name as fileToolSchema. -/
def duplicateFileTool : ToolInterface :=
  ToolInterface.mk "safe_file_access" "Read a file from the host again"

/-- Registry already holding the file-access tool. -/
def registryWithFileTool : ToolManager :=
  ToolManager.mk [fileToolSchema]

theorem c5_register_duplicate_rejected_witness :
    registryWithFileTool.hasTool duplicateFileTool.name = true ∧
    (registryWithFileTool.register_tool duplicateFileTool =
      Except.error ("Tool already registered: " ++ duplicateFileTool.name) ∧
      (registryWithFileTool.registerOrKeep duplicateFileTool).get_tool_definitions =
        registryWithFileTool.get_tool_definitions) :=
  ⟨by decide,
   c5_register_duplicate_rejected registryWithFileTool duplicateFileTool (by decide)⟩

/-- C1: for every filename that contains a traversal sequence or is an
absolute path outside the designated root, safe_file_access returns the
failed validation ToolResult with success false and its read log is empty:
the file content is never read, whatever the host filesystem holds. -/
theorem c1_safe_file_access_rejects_unsafe_paths (root : String)
    (fs : String → Option String) (filename : String)
    (h : containsTraversal filename = true ∨
      (filename.startsWith "/" = true ∧ filename.startsWith root = false)) :
    safe_file_access root fs filename =
      (ToolResult.mk "Error: Invalid file path" false, []) := by
  have hunsafe : is_safe_path root filename = false := by
    rcases h with h1 | ⟨h2, h3⟩
    · simp [is_safe_path, h1]
    · simp [is_safe_path, h2, h3]
  simp [safe_file_access, hunsafe]

/-- Host filesystem on which every path has readable content, so that a read
would be observable if it ever happened. -/
def hostFs : String → Option String :=
  fun _ => some "root:x:0:0:root:/root:/bin/bash"

theorem c1_safe_file_access_rejects_unsafe_paths_witness :
    containsTraversal "../../etc/passwd" = true ∧
    safe_file_access "/workspace" hostFs "../../etc/passwd" =
      (ToolResult.mk "Error: Invalid file path" false, []) :=
  ⟨by decide,
   c1_safe_file_access_rejects_unsafe_paths "/workspace" hostFs "../../etc/passwd"
     (Or.inl (by decide))⟩

/-- C2: CodeExecTool.run under a configured timeout returns within the
timeout bound, never leaves the sandbox process running, and whenever the
code does not finish within the bound (including code that never finishes)
the returned ToolResult is the failed timeout indicator. -/
theorem c2_code_exec_timeout_bounded (timeout : Nat) (p : SandboxProcess) :
    (CodeExecTool.run timeout p).elapsed ≤ timeout ∧
    (CodeExecTool.run timeout p).processRunning = false ∧
    ((p.finishTime = none ∨ ∃ t, p.finishTime = some t ∧ timeout < t) →
      (CodeExecTool.run timeout p).result =
        ToolResult.mk "Error: execution timed out" false) := by
  rcases hf : p.finishTime with _ | t
  · simp [CodeExecTool.run, hf]
  · by_cases hle : t ≤ timeout
    · refine ⟨?_, ?_, ?_⟩
      · simp [CodeExecTool.run, hf, hle]
      · simp [CodeExecTool.run, hf, hle]
      · intro h
        rcases h with h1 | ⟨u, hu, hlt⟩
        · exact absurd h1 (by simp)
        · injection hu with h2
          exact absurd hlt (by omega)
    · simp [CodeExecTool.run, hf, hle]

/-- Sandbox behaviour of code that never finishes, such as an infinite
loop. -/
def infiniteLoopProcess : SandboxProcess :=
  SandboxProcess.mk none "" 1

theorem dispatchLoop_rounds_le (client : Nat → ModelResponse)
    (tools : String → Option (String → ToolResult)) :
    ∀ (remaining callIdx : Nat) (conv : List Message),
      (dispatchLoop client tools remaining callIdx conv).rounds ≤ callIdx + remaining := by
  intro remaining
  induction remaining with
  | zero =>
    intro callIdx conv
    cases hc : client callIdx <;>
      simp [dispatchLoop, hc, PerformResult.rounds]
  | succ r ih =>
    intro callIdx conv
    cases hc : client callIdx with
    | text s => simp [dispatchLoop, hc, PerformResult.rounds]
    | transportError e => simp [dispatchLoop, hc, PerformResult.rounds]
    | toolCalls calls =>
      cases hr : runCalls tools calls with
      | error n => simp [dispatchLoop, hc, hr, PerformResult.rounds]
      | ok ms =>
        have hrec := ih (callIdx + 1) (conv ++ mkAssistantToolCalls calls :: ms)
        simp only [dispatchLoop, hc, hr]
        omega

theorem dispatchLoop_always_toolCalls (client : Nat → ModelResponse)
    (tools : String → Option (String → ToolResult))
    (h : ∀ n, ∃ calls ms, client n = ModelResponse.toolCalls calls ∧
      runCalls tools calls = Except.ok ms) :
    ∀ (remaining callIdx : Nat) (conv : List Message),
      ∃ conv2, dispatchLoop client tools remaining callIdx conv =
        PerformResult.loopBudgetExceeded conv2 (callIdx + remaining) := by
  intro remaining
  induction remaining with
  | zero =>
    intro callIdx conv
    obtain ⟨calls, ms, hc, _⟩ := h callIdx
    exact ⟨conv, by simp [dispatchLoop, hc]⟩
  | succ r ih =>
    intro callIdx conv
    obtain ⟨calls, ms, hc, hr⟩ := h callIdx
    obtain ⟨conv2, h2⟩ := ih (callIdx + 1) (conv ++ mkAssistantToolCalls calls :: ms)
    have he : callIdx + 1 + r = callIdx + (r + 1) := by omega
    rw [he] at h2
    exact ⟨conv2, by simp only [dispatchLoop, hc, hr]; exact h2⟩

/-- C3: the dispatch loop performs at most the configured maximum number of
tool-call rounds: every run of perform records at most maxRounds completed
rounds, and a model that keeps issuing resolvable tool calls makes perform
fail with loopBudgetExceeded at exactly the configured bound. -/
theorem c3_loop_budget_enforced (client : Nat → ModelResponse)
    (tools : String → Option (String → ToolResult))
    (maxRounds : Nat) (task : String) :
    (perform client tools maxRounds task).rounds ≤ maxRounds ∧
    ((∀ n, ∃ calls ms, client n = ModelResponse.toolCalls calls ∧
        runCalls tools calls = Except.ok ms) →
      ∃ conv, perform client tools maxRounds task =
        PerformResult.loopBudgetExceeded conv maxRounds) := by
  constructor
  · have hle := dispatchLoop_rounds_le client tools maxRounds 0 [mkUserMessage task]
    simpa [perform] using hle
  · intro h
    have hx := dispatchLoop_always_toolCalls client tools h maxRounds 0 [mkUserMessage task]
    simpa [perform] using hx

/-- Mock Model Client that requests a tool call on every round. -/
def clientAlwaysToolCall : Nat → ModelResponse :=
  fun _ => ModelResponse.toolCalls
    [ToolCallRequest.mk "call_1" "execute_python_code" "while True: pass"]

/-- Tool resolution of the code-execution agent: only the sandbox tool is
registered; its run here reports a failed execution. -/
def sandboxTools : String → Option (String → ToolResult) :=
  fun n =>
    if n = "execute_python_code" then
      some (fun _ => ToolResult.mk "Error: execution timed out" false)
    else none

theorem c3_loop_budget_enforced_witness :
    (perform clientAlwaysToolCall sandboxTools 3 "analyze").rounds ≤ 3 ∧
    (∃ conv, perform clientAlwaysToolCall sandboxTools 3 "analyze" =
      PerformResult.loopBudgetExceeded conv 3) := by
  have h := c3_loop_budget_enforced clientAlwaysToolCall sandboxTools 3 "analyze"
  refine ⟨h.1, h.2 ?_⟩
  intro n
  exact ⟨[ToolCallRequest.mk "call_1" "execute_python_code" "while True: pass"],
    [mkToolResultMessage "call_1" (ToolResult.mk "Error: execution timed out" false)],
    rfl, rfl⟩

/-- Mock Model Client that asks for an unregistered tool name. -/
def clientUnknownTool : Nat → ModelResponse :=
  fun _ => ModelResponse.toolCalls [ToolCallRequest.mk "call_1" "no_such_tool" "1"]

/-- C4 counterexample: a model response naming an unregistered tool makes
perform fail with fatalToolNotFound, a fatal outcome that is neither a Model
Client transport failure nor loop-budget exhaustion, so transport failures
and budget exhaustion are not the only conditions fatal to perform. -/
theorem c4_only_two_fatal_counterexample :
    perform clientUnknownTool sandboxTools 10 "analyze" =
      PerformResult.fatalToolNotFound "no_such_tool" [mkUserMessage "analyze"] 0 ∧
    (perform clientUnknownTool sandboxTools 10 "analyze").isFatal = true ∧
    (perform clientUnknownTool sandboxTools 10 "analyze").isTransportOrBudget = false :=
  ⟨rfl, rfl, rfl⟩

/-- C4 (amended): a Tool run failure never aborts the dispatch loop: when
every requested tool resolves, the round's results, success or failure, are
appended as tool_result messages and the loop continues; a singleton dispatch
appends the tool's ToolResult verbatim; a Model Client transport failure is
fatal and propagated; exhausting the loop budget is fatal and propagated; and
the only fatal outcomes of perform are transport failures, loop-budget
exhaustion and dispatch of an unknown tool name. -/
theorem c4_failure_semantics (client : Nat → ModelResponse)
    (tools : String → Option (String → ToolResult))
    (r callIdx : Nat) (conv : List Message) (calls : List ToolCallRequest)
    (ms : List Message) (e : String) (c : ToolCallRequest)
    (f : String → ToolResult) (res : PerformResult) :
    (client callIdx = ModelResponse.toolCalls calls →
      runCalls tools calls = Except.ok ms →
      dispatchLoop client tools (r + 1) callIdx conv =
        dispatchLoop client tools r (callIdx + 1)
          (conv ++ mkAssistantToolCalls calls :: ms)) ∧
    (tools c.tool_name = some f →
      runCalls tools [c] =
        Except.ok [mkToolResultMessage c.tool_call_id (f c.arguments)]) ∧
    (client callIdx = ModelResponse.transportError e →
      dispatchLoop client tools r callIdx conv =
        PerformResult.fatalTransport e conv callIdx) ∧
    (client callIdx = ModelResponse.toolCalls calls →
      dispatchLoop client tools 0 callIdx conv =
        PerformResult.loopBudgetExceeded conv callIdx) ∧
    (res.isFatal = true →
      (∃ e2 conv2 k, res = PerformResult.fatalTransport e2 conv2 k) ∨
      (∃ conv2 k, res = PerformResult.loopBudgetExceeded conv2 k) ∨
      (∃ n2 conv2 k, res = PerformResult.fatalToolNotFound n2 conv2 k)) := by
  refine ⟨?_, ?_, ?_, ?_, ?_⟩
  · intro hc hr
    simp [dispatchLoop, hc, hr]
  · intro hf
    simp [runCalls, hf]
  · intro hc
    cases r with
    | zero => simp [dispatchLoop, hc]
    | succ r2 => simp [dispatchLoop, hc]
  · intro hc
    simp [dispatchLoop, hc]
  · intro hfatal
    cases res with
    | done a cv k => simp [PerformResult.isFatal] at hfatal
    | fatalTransport e2 cv k => exact Or.inl ⟨e2, cv, k, rfl⟩
    | loopBudgetExceeded cv k => exact Or.inr (Or.inl ⟨cv, k, rfl⟩)
    | fatalToolNotFound n2 cv k => exact Or.inr (Or.inr ⟨n2, cv, k, rfl⟩)

/-- Mock Model Client whose first round requests a tool call that will fail,
then finishes with text: the model recovers from its own failed code. -/
def clientOneFailThenText : Nat → ModelResponse :=
  fun n =>
    if n = 0 then
      ModelResponse.toolCalls [ToolCallRequest.mk "call_1" "execute_python_code" "1/0"]
    else ModelResponse.text "recovered"

/-- Mock Model Client that fails with a transport error. -/
def clientTransportFail : Nat → ModelResponse :=
  fun _ => ModelResponse.transportError "auth error"

theorem c4_failure_semantics_witness :
    dispatchLoop clientOneFailThenText sandboxTools 3 0 [mkUserMessage "analyze"] =
      dispatchLoop clientOneFailThenText sandboxTools 2 1
        ([mkUserMessage "analyze"] ++
          mkAssistantToolCalls
            [ToolCallRequest.mk "call_1" "execute_python_code" "1/0"] ::
          [mkToolResultMessage "call_1"
            (ToolResult.mk "Error: execution timed out" false)]) ∧
    runCalls sandboxTools [ToolCallRequest.mk "call_1" "execute_python_code" "1/0"] =
      Except.ok [mkToolResultMessage "call_1"
        (ToolResult.mk "Error: execution timed out" false)] ∧
    dispatchLoop clientTransportFail sandboxTools 5 0 [mkUserMessage "analyze"] =
      PerformResult.fatalTransport "auth error" [mkUserMessage "analyze"] 0 ∧
    dispatchLoop clientAlwaysToolCall sandboxTools 0 7 [] =
      PerformResult.loopBudgetExceeded [] 7 := by
  have h1 := c4_failure_semantics clientOneFailThenText sandboxTools 2 0
    [mkUserMessage "analyze"]
    [ToolCallRequest.mk "call_1" "execute_python_code" "1/0"]
    [mkToolResultMessage "call_1" (ToolResult.mk "Error: execution timed out" false)]
    "" (ToolCallRequest.mk "call_1" "execute_python_code" "1/0")
    (fun _ => ToolResult.mk "Error: execution timed out" false)
    (PerformResult.done "" [] 0)
  have h2 := c4_failure_semantics clientTransportFail sandboxTools 5 0
    [mkUserMessage "analyze"] [] [] "auth error"
    (ToolCallRequest.mk "call_1" "execute_python_code" "1/0")
    (fun _ => ToolResult.mk "Error: execution timed out" false)
    (PerformResult.done "" [] 0)
  have h3 := c4_failure_semantics clientAlwaysToolCall sandboxTools 0 7 []
    [ToolCallRequest.mk "call_1" "execute_python_code" "while True: pass"] [] ""
    (ToolCallRequest.mk "call_1" "execute_python_code" "1/0")
    (fun _ => ToolResult.mk "Error: execution timed out" false)
    (PerformResult.done "" [] 0)
  exact ⟨h1.1 rfl rfl, h1.2.1 rfl, h2.2.2.1 rfl, h3.2.2.2.1 rfl⟩

theorem c2_code_exec_timeout_bounded_witness :
    (CodeExecTool.run 5 infiniteLoopProcess).elapsed ≤ 5 ∧
    (CodeExecTool.run 5 infiniteLoopProcess).processRunning = false ∧
    (CodeExecTool.run 5 infiniteLoopProcess).result =
      ToolResult.mk "Error: execution timed out" false := by
  have h := c2_code_exec_timeout_bounded 5 infiniteLoopProcess
  exact ⟨h.1, h.2.1, h.2.2 (Or.inl rfl)⟩

/-- C7: every dataAgentTaskStart event of the orchestrator trace sits at an
index at least 4, while the file agent task completes at index 1 and its
output is added to the data agents context at index 3: the file-access agent
completes fully and its output is in the code-execution agents context
before that agent is ever invoked, so it never starts while the file agent
is still running. -/
theorem c7_agents_run_in_sequence (prompt fileOut : String)
    (dataOut : String → String) (inputs : List String) (j : Nat) (q : String)
    (h : (orchestratorTrace prompt fileOut dataOut inputs).get? j =
      some (OrchEvent.dataAgentTaskStart q)) :
    4 ≤ j ∧
    (orchestratorTrace prompt fileOut dataOut inputs).get? 1 =
      some (OrchEvent.fileAgentTaskEnd fileOut) ∧
    (orchestratorTrace prompt fileOut dataOut inputs).get? 3 =
      some (OrchEvent.addContext fileOut) := by
  refine ⟨?_, rfl, rfl⟩
  match j with
  | 0 => exact absurd h (by simp [orchestratorTrace, List.get?])
  | 1 => exact absurd h (by simp [orchestratorTrace, List.get?])
  | 2 => exact absurd h (by simp [orchestratorTrace, List.get?])
  | 3 => exact absurd h (by simp [orchestratorTrace, List.get?])
  | Nat.succ (Nat.succ (Nat.succ (Nat.succ n))) => omega

/-- Output of the data-analysis agent used in concrete runs. -/
def dataOutDefault : String → String :=
  fun q => q ++ " answered"

theorem c7_agents_run_in_sequence_witness :
    (orchestratorTrace "p" "file contents" dataOutDefault ["q1", "exit"]).get? 4 =
      some (OrchEvent.dataAgentTaskStart "q1") ∧
    (4 ≤ 4 ∧
      (orchestratorTrace "p" "file contents" dataOutDefault ["q1", "exit"]).get? 1 =
        some (OrchEvent.fileAgentTaskEnd "file contents") ∧
      (orchestratorTrace "p" "file contents" dataOutDefault ["q1", "exit"]).get? 3 =
        some (OrchEvent.addContext "file contents")) :=
  ⟨rfl, c7_agents_run_in_sequence "p" "file contents" dataOutDefault
    ["q1", "exit"] 4 "q1" rfl⟩

/-- Relation between the data-analysis agents contexts at the starts of two
consecutive dispatched tasks: the later context is the earlier one extended
with exactly the earlier tasks user question and assistant answer. -/
def persistStep (respond : List Message → String) (x y : AgentCtx) : Prop :=
  ∃ q, y.messages = x.messages ++ [mkUserMessage q,
    mkAssistantText (respond (x.messages ++ [mkUserMessage q]))]

theorem orchLoopStates_head (respond : List Message → String) (a2 b : AgentCtx)
    (l : List String) (h : (orchLoopStates respond a2 l).head? = some b) : b = a2 := by
  match l with
  | [] => simp [orchLoopStates] at h
  | i :: rest =>
    by_cases hi : i = "exit"
    · simp [orchLoopStates, hi] at h
    · simp [orchLoopStates, hi] at h
      exact h.symm

/-- C9 (amended): the data-analysis agents conversation context persists
from each completed task into the next: along the orchestrator loop, each
consecutive pair of task-start contexts is related by persistStep, so the
context at the start of task k+1 is exactly the context at the start of task
k extended by task ks turns. The agent is reused, never discarded or reset,
across the loop iterations. -/
theorem c9_context_persists_across_tasks (respond : List Message → String)
    (a : AgentCtx) (inputs : List String) :
    List.Chain' (persistStep respond) (orchLoopStates respond a inputs) := by
  induction inputs generalizing a with
  | nil => simp [orchLoopStates]
  | cons i rest ih =>
    by_cases hi : i = "exit"
    · simp [orchLoopStates, hi]
    · simp only [orchLoopStates, hi, if_false, ite_false, if_neg, not_false_iff]
      rw [List.chain'_cons']
      refine ⟨?_, ih ((AgentCtx.task respond a i).1)⟩
      intro b hb
      have hb2 := orchLoopStates_head respond _ b rest hb
      subst hb2
      refine ⟨i, ?_⟩
      simp [AgentCtx.task]

/-- Model responder used in concrete orchestrator runs. -/
def respondDefault : List Message → String :=
  fun _ => "analysis complete"

/-- Data-analysis agent context as set up by orchestration cell 866b7eb2
before the interactive loop: the column-description prompt and the file
agents output are added as context. -/
def dataAgentInit : AgentCtx :=
  ((AgentCtx.mk []).add_context "column description prompt").add_context
    "file contents"

/-- C9 counterexample: running the embedded orchestrator loop on the inputs
q1, q2, exit, the user message of task 1 is absent from the agents context
at the start of task 1 but present in its context at the start of task 2:
conversation state from the completed first task persists into the second
task, because the same data-analysis agent is reused without reset across
the while-loop iterations of cell 866b7eb2. -/
theorem c9_no_persistence_counterexample :
    (orchLoopStates respondDefault dataAgentInit ["q1", "q2", "exit"]).map
      (fun ag => ag.messages.contains (mkUserMessage "q1")) = [false, true] := by
  decide

/-- C10: the interactive driver loop of cell 866b7eb2 terminates exactly on
the input exit: that input is never dispatched and ends the loop before any
agent call; any other input, the empty string and differently-cased variants
included, is dispatched to the data-analysis agent and the loop continues;
and the loop has no iteration cap: an input stream with no exit is processed
in full, one dispatch per input. -/
theorem c10_interactive_loop_exit (i : String) (rest inputs : List String) :
    interactiveLoop ("exit" :: rest) = [LoopEvent.exited] ∧
    (i ≠ "exit" → interactiveLoop (i :: rest) =
      LoopEvent.dispatched i :: interactiveLoop rest) ∧
    ("exit" ∉ inputs → interactiveLoop inputs = inputs.map LoopEvent.dispatched) ∧
    (∀ q, LoopEvent.dispatched q ∈ interactiveLoop inputs → q ≠ "exit") := by
  refine ⟨by simp [interactiveLoop], ?_, ?_, ?_⟩
  · intro hi
    simp [interactiveLoop, hi]
  · intro hni
    induction inputs with
    | nil => simp [interactiveLoop]
    | cons j js ih =>
      have hj : j ≠ "exit" := by
        intro e
        exact hni (by simp [e])
      have hjs : "exit" ∉ js := fun hm => hni (List.mem_cons_of_mem _ hm)
      simp [interactiveLoop, hj, ih hjs]
  · intro q hq
    induction inputs with
    | nil => simp [interactiveLoop] at hq
    | cons j js ih =>
      by_cases hj : j = "exit"
      · simp [interactiveLoop, hj] at hq
      · simp [interactiveLoop, hj] at hq
        rcases hq with h1 | h2
        · subst h1
          exact hj
        · exact ih h2

theorem c10_interactive_loop_exit_witness :
    interactiveLoop ["exit"] = [LoopEvent.exited] ∧
    interactiveLoop ["", "exit"] =
      LoopEvent.dispatched "" :: interactiveLoop ["exit"] ∧
    interactiveLoop ["Exit", "exit"] =
      LoopEvent.dispatched "Exit" :: interactiveLoop ["exit"] ∧
    interactiveLoop ["a", "b", "c"] =
      [LoopEvent.dispatched "a", LoopEvent.dispatched "b", LoopEvent.dispatched "c"] := by
  have h0 := c10_interactive_loop_exit "x" [] []
  have h1 := c10_interactive_loop_exit "" ["exit"] []
  have h2 := c10_interactive_loop_exit "Exit" ["exit"] []
  have h3 := c10_interactive_loop_exit "x" [] ["a", "b", "c"]
  exact ⟨h0.1, h1.2.1 (by decide), h2.2.1 (by decide), h3.2.2.1 (by decide)⟩

/-- C8: evaluating the embedded generate_completion at a call supplying the
reasoning-effort hint: the request passed to the chat completions endpoint
carries no reasoning-effort value, only model, messages and tools; the
supplied hint is silently dropped instead of being passed through. -/
theorem c8_reasoning_effort_dropped :
    (generate_completion_request "o3-mini" [mkUserMessage "analyze"] none
      (some "high")).reasoning_effort = none ∧
    generate_completion_request "o3-mini" [mkUserMessage "analyze"] none
      (some "high") =
      ChatCompletionRequest.mk "o3-mini" [mkUserMessage "analyze"] none none :=
  ⟨rfl, rfl⟩
